import Mathlib

/-!
Real-estate clustering service: the loader and the cluster query.

A shallow embedding of the two Go programs of the repository:

* `cmd/load_data/main.go`: the CSV loader (`parseProperty`, the read/filter/batch
  loop of `main`, `insertBatch`);
* `main.go`: the HTTP boundary `getClustersHandler` and the SQL text run by
  `getClusters`.

Go strings are Lean strings, Go `int` is a 64-bit integer carried in `ℤ`, a Go
`float64` is the type `F64` below, a run-time index fault is the explicit
outcome `Fault.indexOutOfRange`.  The numbers computed inside the store (SQL
`numeric` and `double precision`) are carried as exact rationals.
-/

set_option autoImplicit false

namespace Clusters

/-! ## Go values -/

/-- A Go `float64`: not-a-number, a signed infinity, or the finite value
`± mant / 10 ^ scale` (every finite binary float is such a decimal; the sign is
kept apart so that negative zero is a value). -/
inductive F64 where
  | nan : F64
  | inf (neg : Bool) : F64
  | fin (neg : Bool) (mant : ℕ) (scale : ℕ) : F64
deriving DecidableEq

namespace F64

/-- The zero value of a `float64` variable. -/
def zero : F64 := .fin false 0 0

/-- Go `x == 0`. -/
def eqZero : F64 → Bool
  | .fin _ m _ => m == 0
  | _ => false

/-- Go `x <= 0`. -/
def leZero : F64 → Bool
  | .nan => false
  | .inf neg => neg
  | .fin neg m _ => neg || m == 0

/-- Go `x > 0`. -/
def gtZero : F64 → Bool
  | .nan => false
  | .inf neg => !neg
  | .fin neg m _ => !neg && m != 0

end F64

/-- The two kinds of `strconv.NumError`. -/
inductive NumErr where
  | malformed : NumErr
  | outOfRange : NumErr
deriving DecidableEq

/-- Value of a decimal digit byte. -/
def digitVal (c : Char) : Option ℕ :=
  if 48 ≤ c.toNat ∧ c.toNat ≤ 57 then some (c.toNat - 48) else none

/-- Result of scanning the digits of an unsigned number. -/
inductive Scan where
  | bad : Scan
  | over : Scan
  | val (n : ℕ) : Scan
deriving DecidableEq

/-- The digit loop of `strconv.ParseUint` in base 10 with 64 bits: the first
non-digit is a malformed number, the first step past `2^64 - 1` is a range
error, whatever follows. -/
def scanDigits : List Char → ℕ → Scan
  | [], n => .val n
  | c :: cs, n =>
    match digitVal c with
    | none => .bad
    | some d => if 18446744073709551615 < n * 10 + d then .over else scanDigits cs (n * 10 + d)

/-- Go `strconv.Atoi` on a 64-bit platform: the value and the error. -/
def Atoi (s : String) : ℤ × Option NumErr :=
  let sb : Bool × List Char :=
    match s.data with
    | '-' :: r => (true, r)
    | '+' :: r => (false, r)
    | r => (false, r)
  if sb.2 = [] then (0, some .malformed)
  else
    match scanDigits sb.2 0 with
    | .bad => (0, some .malformed)
    | .over => if sb.1 then (-9223372036854775808, some .outOfRange)
               else (9223372036854775807, some .outOfRange)
    | .val n =>
      if sb.1 then
        if 9223372036854775808 < n then (-9223372036854775808, some .outOfRange)
        else (-(n : ℤ), none)
      else
        if 9223372036854775808 ≤ n then (9223372036854775807, some .outOfRange)
        else ((n : ℤ), none)

/-- The type of `strconv.ParseFloat(·, 64)`: the value and the error. -/
abbrev FloatParser := String → F64 × Option NumErr

/-- The double quote, the cut set of every `strings.Trim` call. -/
def quote : Char := Char.ofNat 34

/-- Drop the leading double quotes. -/
def dropQuotes : List Char → List Char
  | [] => []
  | c :: cs => if c = quote then dropQuotes cs else c :: cs

/-- Go `strings.Trim(s, "\"")`. -/
def Trim (s : String) : String :=
  String.mk (dropQuotes (dropQuotes s.data).reverse).reverse

/-! ## The loader: records -/

/-- The loader's `CSVProperty`. -/
structure CSVProperty where
  ID : ℤ
  GeoLat : F64
  GeoLng : F64
  Price : F64
  Name : String
  RoomsTypeID : Option ℤ
  TotalArea : Option F64
  RealtyTypeID : ℤ
deriving DecidableEq

/-- A Go `map[string]int`. -/
abbrev Indices := String → Option ℕ

/-- Go `indices[key]`: the zero value when the key is missing. -/
def Indices.at (m : Indices) (key : String) : ℕ := (m key).getD 0

/-- The header loop of `main`: `indices[strings.Trim(col, "\"")] = i`. -/
def buildIndices (header : List String) : Indices :=
  header.enum.foldl (fun m ic => fun k => if k = Trim ic.2 then some ic.1 else m k)
    (fun _ => none)

/-- The columns `main` insists on. -/
def required : List String :=
  ["id", "geo_lat", "geo_lng", "price", "name", "rooms_type_id", "total_area", "realty_type_id"]

/-- The presence check of `main` (a missing column ends the program). -/
def hasRequired (m : Indices) : Bool := required.all fun col => (m col).isSome

/-- Which field made `parseProperty` return an error. -/
inductive ParseErr where
  | id : ParseErr
  | latitude : ParseErr
  | longitude : ParseErr
  | price : ParseErr
deriving DecidableEq

/-- How a call can end without a record: a returned error, or the run-time
fault of indexing a slice out of range. -/
inductive Fault where
  | parse (e : ParseErr) : Fault
  | indexOutOfRange : Fault
deriving DecidableEq

deriving instance DecidableEq for Except

/-- Go `record[i]`. -/
def field (record : List String) (i : ℕ) : Except Fault String :=
  match record.get? i with
  | some s => .ok s
  | none => .error .indexOutOfRange

/-- A required float field: parsed only when non-empty. -/
def floatField (pf : FloatParser) (s : String) (e : ParseErr) : Except Fault F64 :=
  if s ≠ "" then
    match pf s with
    | (v, none) => .ok v
    | (_, some _) => .error (.parse e)
  else .ok F64.zero

/-- The room count: present only when non-empty and parsable. -/
def roomsField (s : String) : Option ℤ :=
  if s ≠ "" then
    match Atoi s with
    | (v, none) => some v
    | (_, some _) => none
  else none

/-- The area: present only when non-empty and parsable. -/
def areaField (pf : FloatParser) (s : String) : Option F64 :=
  if s ≠ "" then
    match pf s with
    | (v, none) => some v
    | (_, some _) => none
  else none

/-- The realty type code: `1` on a parse error, the zero value when empty. -/
def realtyField (s : String) : ℤ :=
  if s ≠ "" then
    match Atoi s with
    | (v, none) => v
    | (_, some _) => 1
  else 0

/-- The loader's `parseProperty`. -/
def parseProperty (pf : FloatParser) (record : List String) (indices : Indices) :
    Except Fault CSVProperty :=
  match field record (indices.at "id") with
  | .error f => .error f
  | .ok idRaw =>
  match Atoi (Trim idRaw) with
  | (_, some _) => .error (.parse .id)
  | (id, none) =>
  match field record (indices.at "geo_lat") with
  | .error f => .error f
  | .ok latRaw =>
  match floatField pf (Trim latRaw) .latitude with
  | .error f => .error f
  | .ok lat =>
  match field record (indices.at "geo_lng") with
  | .error f => .error f
  | .ok lngRaw =>
  match floatField pf (Trim lngRaw) .longitude with
  | .error f => .error f
  | .ok lng =>
  match field record (indices.at "price") with
  | .error f => .error f
  | .ok priceRaw =>
  match floatField pf (Trim priceRaw) .price with
  | .error f => .error f
  | .ok price =>
  match field record (indices.at "name") with
  | .error f => .error f
  | .ok nameRaw =>
  match field record (indices.at "rooms_type_id") with
  | .error f => .error f
  | .ok roomsRaw =>
  match field record (indices.at "total_area") with
  | .error f => .error f
  | .ok areaRaw =>
  match field record (indices.at "realty_type_id") with
  | .error f => .error f
  | .ok realtyRaw =>
    .ok { ID := id, GeoLat := lat, GeoLng := lng, Price := price, Name := Trim nameRaw,
          RoomsTypeID := roomsField (Trim roomsRaw),
          TotalArea := areaField pf (Trim areaRaw),
          RealtyTypeID := realtyField (Trim realtyRaw) }

/-! ## A sample of `strconv.ParseFloat`

The loader and the handler are embedded over an arbitrary `FloatParser`.  The
concrete evaluations below use this rendering of `strconv.ParseFloat(s, 64)` on
the special values and on plain decimal literals (sign, digits, at most one
point).  Literals with an exponent, a hexadecimal prefix or underscores, which
Go also accepts, are reported as malformed here and are not used. -/

/-- ASCII lower case of a byte. -/
def lowerChar (c : Char) : Char :=
  if 65 ≤ c.toNat ∧ c.toNat ≤ 90 then Char.ofNat (c.toNat + 32) else c

/-- Whether the bytes spell `inf` or `infinity`, ignoring case. -/
def isInfWord (cs : List Char) : Bool :=
  cs.map lowerChar = ['i', 'n', 'f'] ∨ cs.map lowerChar = ['i', 'n', 'f', 'i', 'n', 'i', 't', 'y']

/-- The function `special` of `strconv`, on a whole string. -/
def special (cs : List Char) : Option F64 :=
  match cs with
  | '+' :: r => if isInfWord r then some (.inf false) else none
  | '-' :: r => if isInfWord r then some (.inf true) else none
  | r =>
    if isInfWord r then some (.inf false)
    else if r.map lowerChar = ['n', 'a', 'n'] then some .nan
    else none

/-- Mantissa and number of fraction digits of `digits [. digits]`; `none` when
there is no digit, a second point or any other byte. -/
def readDec : List Char → ℕ → ℕ → Bool → Bool → Option (ℕ × ℕ)
  | [], m, sc, _, sawdigits => if sawdigits then some (m, sc) else none
  | c :: cs, m, sc, sawdot, sawdigits =>
    if c = '.' then (if sawdot then none else readDec cs m sc true sawdigits)
    else
      match digitVal c with
      | none => none
      | some d => readDec cs (m * 10 + d) (if sawdot then sc + 1 else sc) sawdot true

/-- Sample of `strconv.ParseFloat(s, 64)`: a literal at or above the midpoint
between the largest float and `2^1024` is a range error with an infinity, one
at or below `2^-1075` is a zero, and a literal of at most 300 bytes is neither.
A finite result carries the decimal value of the literal, not the binary float
nearest to it; the two have the same sign and are zero together, which is all
the loader and the handler look at. -/
def ParseFloat : FloatParser := fun s =>
  match special s.data with
  | some v => (v, none)
  | none =>
    let sb : Bool × List Char :=
      match s.data with
      | '-' :: r => (true, r)
      | '+' :: r => (false, r)
      | r => (false, r)
    match readDec sb.2 0 0 false false with
    | none => (F64.zero, some .malformed)
    | some (m, sc) =>
      if sb.2.length ≤ 300 then (.fin sb.1 m sc, none)
      else if (2 ^ 1024 - 2 ^ 970) * 10 ^ sc ≤ m then (.inf sb.1, some .outOfRange)
      else if m * 2 ^ 1075 ≤ 10 ^ sc then (.fin sb.1 0 0, none)
      else (.fin sb.1 m sc, none)

/-! ## The loader: reading, filtering and batching -/

/-- The constant `batchSize` of `main`. -/
def batchSize : ℕ := 1000

/-- The producer side of `main`: the accumulator `batch` and the batches sent on
`batchChan` so far, oldest first.  (The counter `recordsProcessed` only feeds a
progress line and is left out.) -/
structure Producer where
  batch : List CSVProperty
  sent : List (List CSVProperty)
deriving DecidableEq

/-- The state before the first read. -/
def Producer.start : Producer := ⟨[], []⟩

/-- Lines 157-165: append the record, and send a copy of a full accumulator. -/
def Producer.push (st : Producer) (prop : CSVProperty) : Producer :=
  if batchSize ≤ (st.batch ++ [prop]).length then
    ⟨[], st.sent ++ [st.batch ++ [prop]]⟩
  else
    ⟨st.batch ++ [prop], st.sent⟩

/-- Lines 168-171: the rest of the accumulator is sent when it is not empty. -/
def Producer.flush (st : Producer) : List (List CSVProperty) :=
  if 0 < st.batch.length then st.sent ++ [st.batch] else st.sent

/-- The filter of line 153: the rows that are dropped. -/
def rejected (prop : CSVProperty) : Bool :=
  prop.GeoLat.eqZero || prop.GeoLng.eqZero || prop.Price.leZero

/-- One result of `reader.Read()`. -/
inductive ReadResult where
  | record (r : List String) : ReadResult
  | failure (msg : String) : ReadResult
deriving DecidableEq

/-- The read loop of `main` over the successive results of `reader.Read()`; the
end of the list is the end of the input.  `none` is the run-time fault of
`parseProperty`, which ends the program. -/
def readLoop (pf : FloatParser) (indices : Indices) :
    List ReadResult → Producer → Option Producer
  | [], st => some st
  | .failure msg :: rest, st =>
    if msg = "EOF" then some st else readLoop pf indices rest st
  | .record r :: rest, st =>
    match parseProperty pf r indices with
    | .error .indexOutOfRange => none
    | .error (.parse _) => readLoop pf indices rest st
    | .ok prop =>
      if rejected prop then readLoop pf indices rest st
      else readLoop pf indices rest (st.push prop)

/-- The batches `main` sends on `batchChan`, in send order. -/
def ingest (pf : FloatParser) (indices : Indices) (reads : List ReadResult) :
    Option (List (List CSVProperty)) :=
  (readLoop pf indices reads Producer.start).map Producer.flush

/-- The records of the input that parse and pass the filter, in input order. -/
def accepted (pf : FloatParser) (indices : Indices) : List ReadResult → List CSVProperty
  | [] => []
  | .failure msg :: rest => if msg = "EOF" then [] else accepted pf indices rest
  | .record r :: rest =>
    match parseProperty pf r indices with
    | .error _ => accepted pf indices rest
    | .ok prop =>
      if rejected prop then accepted pf indices rest else prop :: accepted pf indices rest

/-- The batches sent for a sequence of accepted records. -/
def sendAll (accepted : List CSVProperty) : List (List CSVProperty) :=
  (accepted.foldl Producer.push Producer.start).flush

/-- The consecutive chunks of `size` elements of a list, in order, the last one
possibly shorter: chunk `i` is made of the elements at positions
`size * i, ..., size * i + size - 1` (the reading of "chunking" the batching is
compared with). -/
def chunks {α : Type} (size : ℕ) (xs : List α) : List (List α) :=
  (List.range ((xs.length + size - 1) / size)).map fun i => (xs.drop (size * i)).take size

/-! ## The loader: `insertBatch` -/

/-- The row handed to one `INSERT`. -/
structure InsertRow where
  id : ℤ
  title : String
  price : F64
  latitude : F64
  longitude : F64
  property_type : String
  rooms : Option ℤ
  area : Option F64
deriving DecidableEq

/-- The `switch` of `insertBatch` on the realty type code. -/
def propertyTypeOf (code : ℤ) : String :=
  if code = 1 then "Квартира"
  else if code = 2 then "Дом"
  else if code = 3 then "Коммерческая"
  else "Другое"

/-- The title: the name, or a placeholder built from the identifier. -/
def titleOf (prop : CSVProperty) : String :=
  if prop.Name = "" then "Объект недвижимости #" ++ toString prop.ID else prop.Name

/-- The arguments of the `INSERT` for one record. -/
def insertRowOf (prop : CSVProperty) : InsertRow :=
  ⟨prop.ID, titleOf prop, prop.Price, prop.GeoLat, prop.GeoLng,
    propertyTypeOf prop.RealtyTypeID, prop.RoomsTypeID, prop.TotalArea⟩

/-- The outcomes of the store operations of one `insertBatch` call.  The store
is PostgreSQL behind `lib/pq` and the call is one transaction of it: a failed
statement aborts the transaction, after which every `Exec` fails and `Commit`
returns an error.  `beginFails` is whether `Begin` fails, `execFails i` whether
the store refuses the `INSERT` of the record at position `i` of the batch while
the transaction is still healthy, `commitFails` whether `Commit` fails on a
transaction none of whose statements failed. -/
structure StoreOutcomes where
  beginFails : Bool
  execFails : ℕ → Bool
  commitFails : Bool

/-- The `for` loop of `insertBatch` from position `i` on, entered with the
transaction aborted or not: the counter `inserted`, whether the transaction is
aborted at the end, and the rows whose `Exec` succeeded.  A failed `Exec` is
logged and the loop goes on (`continue`). -/
def insertLoop (store : StoreOutcomes) :
    ℕ → Bool → List CSVProperty → ℕ × Bool × List InsertRow
  | _, aborted, [] => (0, aborted, [])
  | i, aborted, prop :: rest =>
    if aborted || store.execFails i then insertLoop store (i + 1) true rest
    else ((insertLoop store (i + 1) false rest).1 + 1,
          (insertLoop store (i + 1) false rest).2.1,
          insertRowOf prop :: (insertLoop store (i + 1) false rest).2.2)

/-- Whether `tx.Commit()` returns an error after the loop over the batch. -/
def commitErr (store : StoreOutcomes) (batch : List CSVProperty) : Bool :=
  (insertLoop store 0 false batch).2.1 || store.commitFails

/-- What `insertBatch` returns and leaves behind: the count, whether the error
is non-nil, whether the transaction was committed, and the rows it holds. -/
structure InsertResult where
  count : ℕ
  failed : Bool
  committed : Bool
  rows : List InsertRow
deriving DecidableEq

/-- The loader's `insertBatch`. -/
def insertBatch (store : StoreOutcomes) (batch : List CSVProperty) : InsertResult :=
  if store.beginFails then ⟨0, true, false, []⟩
  else if commitErr store batch then ⟨0, true, false, []⟩
  else ⟨(insertLoop store 0 false batch).1, false, true, (insertLoop store 0 false batch).2.2⟩

/-! ## The service: `getClustersHandler` -/

/-- The query string of a request: the value of each parameter it carries. -/
abbrev Query := String → Option String

/-- The call `c.Query(key)` of gin: the empty string for an absent parameter. -/
def Query.value (q : Query) (key : String) : String := (q key).getD ""

/-- The arguments of a call of `getClusters`. -/
structure ClusterArgs where
  minLat : F64
  maxLat : F64
  minLng : F64
  maxLng : F64
  zoomLevel : ℤ
deriving DecidableEq

/-- What the handler did with a request: the status of its response and the
arguments of its call of `getClusters`, when it made one. -/
structure Handled where
  status : ℕ
  call : Option ClusterArgs
deriving DecidableEq

/-- The service's `getClustersHandler`; `core` tells whether `getClusters`
returns an error for the arguments.  The errors of `ParseFloat` and `Atoi` are
dropped and only the values are looked at. -/
def getClustersHandler (pf : FloatParser) (core : ClusterArgs → Bool) (q : Query) : Handled :=
  if (pf (q.value "min_lat")).1.eqZero || (pf (q.value "max_lat")).1.eqZero ||
      (pf (q.value "min_lng")).1.eqZero || (pf (q.value "max_lng")).1.eqZero ||
      (Atoi (q.value "zoom")).1 == 0 then
    ⟨400, none⟩
  else if core ⟨(pf (q.value "min_lat")).1, (pf (q.value "max_lat")).1,
      (pf (q.value "min_lng")).1, (pf (q.value "max_lng")).1, (Atoi (q.value "zoom")).1⟩ then
    ⟨500, some ⟨(pf (q.value "min_lat")).1, (pf (q.value "max_lat")).1,
      (pf (q.value "min_lng")).1, (pf (q.value "max_lng")).1, (Atoi (q.value "zoom")).1⟩⟩
  else
    ⟨200, some ⟨(pf (q.value "min_lat")).1, (pf (q.value "max_lat")).1,
      (pf (q.value "min_lng")).1, (pf (q.value "max_lng")).1, (Atoi (q.value "zoom")).1⟩⟩

/-- A request with all five parameters. -/
def requestOf (minLat maxLat minLng maxLng zoom : String) : Query := fun k =>
  if k = "min_lat" then some minLat
  else if k = "max_lat" then some maxLat
  else if k = "min_lng" then some minLng
  else if k = "max_lng" then some maxLng
  else if k = "zoom" then some zoom
  else none

/-! ## The service: the SQL of `getClusters`

The query is embedded clause by clause.  Integers of the store are 32-bit
(`integer`), its `numeric` and `double precision` values are exact rationals,
and the two spatial functions the store brings (`ST_Transform` to and from the
planar system) are the fields of a `Projection`. -/

/-- Go `int` addition: the sum wraps to 64 bits. -/
def wrapInt64 (n : ℤ) : ℤ := (n + 9223372036854775808) % 18446744073709551616 - 9223372036854775808

/-- The cast `::integer`: a value outside 32 bits is an error of the query. -/
def toInt4 (n : ℤ) : Option ℤ :=
  if -2147483648 ≤ n ∧ n ≤ 2147483647 then some n else none

/-- The shift `1 << n` on `integer`: the count is taken modulo 32 and the result
is kept to 32 bits (the shift of the machine, which the store passes on). -/
def int4shl1 (n : ℤ) : ℤ :=
  (2 ^ (n % 32).toNat + 2147483648) % 4294967296 - 2147483648

/-- The product of two `integer`s: an overflow is an error of the query. -/
def int4mul (a b : ℤ) : Option ℤ := toInt4 (a * b)

/-- The column `tile_resolution` of `constants`:
`256 * (20037508.34 * 2 / (256 * (1 << zoom::integer)))`. -/
def tile_resolution (zoom : ℤ) : Option ℚ :=
  match toInt4 zoom with
  | none => none
  | some z =>
    match int4mul 256 (int4shl1 z) with
    | none => none
    | some d => if d = 0 then none else some (256 * (20037508.34 * 2 / (d : ℚ)))

/-- The cell edge length `getClusters` uses for a requested zoom level: line
189 adds 2 to the level before it is bound to `$5`. -/
def gridSize (zoomLevel : ℤ) : Option ℚ := tile_resolution (wrapInt64 (zoomLevel + 2))

/-- The store's `ST_Transform` between geographic degrees (SRID 4326, as
longitude and latitude) and the planar system (SRID 3857, as x and y). -/
structure Projection where
  forward : ℚ → ℚ → ℚ × ℚ
  inverse : ℚ → ℚ → ℚ × ℚ

/-- A row of the table `properties`, as far as the query reads it. -/
structure PropertyRow where
  id : ℤ
  price : ℚ
  longitude : ℚ
  latitude : ℚ
deriving DecidableEq

/-- A bounding box in the planar system. -/
structure Box where
  xmin : ℚ
  ymin : ℚ
  xmax : ℚ
  ymax : ℚ
deriving DecidableEq

/-- The column `bbox_geom`: the envelope of `$1, $2, $3, $4` transformed
corner by corner; the operator `&&` only reads its bounding box. -/
def bbox_geom (g : Projection) (x1 y1 x2 y2 : ℚ) : Box :=
  ⟨min (min (g.forward x1 y1).1 (g.forward x1 y2).1) (min (g.forward x2 y2).1 (g.forward x2 y1).1),
   min (min (g.forward x1 y1).2 (g.forward x1 y2).2) (min (g.forward x2 y2).2 (g.forward x2 y1).2),
   max (max (g.forward x1 y1).1 (g.forward x1 y2).1) (max (g.forward x2 y2).1 (g.forward x2 y1).1),
   max (max (g.forward x1 y1).2 (g.forward x1 y2).2) (max (g.forward x2 y2).2 (g.forward x2 y1).2)⟩

/-- The operator `&&` between a point and the box. -/
def Box.overlaps (b : Box) (pt : ℚ × ℚ) : Bool :=
  decide (b.xmin ≤ pt.1 ∧ pt.1 ≤ b.xmax ∧ b.ymin ≤ pt.2 ∧ pt.2 ≤ b.ymax)

/-- A row of `raw_points`. -/
structure RawPoint where
  id : ℤ
  price : ℚ
  geom : ℚ × ℚ
deriving DecidableEq

/-- The clause `raw_points`: the stored points whose projection overlaps the box. -/
def raw_points (g : Projection) (table : List PropertyRow) (bbox : Box) : List RawPoint :=
  (table.filter fun p => bbox.overlaps (g.forward p.longitude p.latitude)).map
    fun p => ⟨p.id, p.price, g.forward p.longitude p.latitude⟩

/-- The C function `rint`: the nearest integer, a tie going to the even one. -/
def rint (q : ℚ) : ℤ :=
  if q - ⌊q⌋ < 1 / 2 then ⌊q⌋
  else if 1 / 2 < q - ⌊q⌋ then ⌊q⌋ + 1
  else if ⌊q⌋ % 2 = 0 then ⌊q⌋ else ⌊q⌋ + 1

/-- One coordinate under `ST_SnapToGrid` with origin 0: `rint(x / size) * size`
for a positive size, the coordinate itself otherwise. -/
def snapCoord (size x : ℚ) : ℚ :=
  if 0 < size then (rint (x / size) : ℚ) * size else x

/-- The call `ST_SnapToGrid(geom, sizeX, sizeY)` on a point. -/
def ST_SnapToGrid (geom : ℚ × ℚ) (sizeX sizeY : ℚ) : ℚ × ℚ :=
  (snapCoord sizeX geom.1, snapCoord sizeY geom.2)

/-- A row of `tile_grid`. -/
structure TilePoint where
  grid_cell : ℚ × ℚ
  price : ℚ
  geom : ℚ × ℚ
deriving DecidableEq

/-- The clause `tile_grid`. -/
def tile_grid (res : ℚ) (raw : List RawPoint) : List TilePoint :=
  raw.map fun r => ⟨ST_SnapToGrid r.geom res res, r.price, r.geom⟩

/-- The service's `Cluster`; the identifier is the snapped point the text
`cluster_id` is printed from. -/
structure Cluster where
  ClusterID : ℚ × ℚ
  CenterLat : ℚ
  CenterLng : ℚ
  PointCount : ℕ
  AvgPrice : ℚ
  MinPrice : ℚ
  MaxPrice : ℚ
deriving DecidableEq

/-- The aggregates of one group and the final `SELECT` over it. -/
def clusterOf (g : Projection) (cell : ℚ × ℚ) (members : List TilePoint) : Cluster :=
  ⟨cell,
   (g.inverse ((members.map fun m => m.geom.1).sum / members.length)
      ((members.map fun m => m.geom.2).sum / members.length)).2,
   (g.inverse ((members.map fun m => m.geom.1).sum / members.length)
      ((members.map fun m => m.geom.2).sum / members.length)).1,
   members.length,
   (members.map fun m => m.price).sum / members.length,
   (members.map fun m => m.price).foldl min ((members.map fun m => m.price).headD 0),
   (members.map fun m => m.price).foldl max ((members.map fun m => m.price).headD 0)⟩

/-- The clause `clusters` with the final `SELECT`: one row for each distinct
`grid_cell`, aggregated over the rows of `tile_grid` with that cell. -/
def clusters (g : Projection) (tg : List TilePoint) : List Cluster :=
  (tg.map fun t => t.grid_cell).dedup.map fun cell =>
    clusterOf g cell (tg.filter fun t => t.grid_cell = cell)

/-- The service's `getClusters`: the clusters, or `none` when the query fails. -/
def getClusters (g : Projection) (table : List PropertyRow)
    (minLat maxLat minLng maxLng : ℚ) (zoomLevel : ℤ) : Option (List Cluster) :=
  match gridSize zoomLevel with
  | none => none
  | some res =>
    some (clusters g (tile_grid res (raw_points g table (bbox_geom g minLng minLat maxLng maxLat))))

/-- A linear stand-in for the store's projection, used in the concrete
evaluations: 20037508.34 planar units for 180 degrees on both axes.  On x this
is the scale of the planar system. -/
def linearProjection : Projection :=
  ⟨fun lng lat => (lng * 20037508.34 / 180, lat * 20037508.34 / 180),
   fun x y => (x * 180 / 20037508.34, y * 180 / 20037508.34)⟩

/-! ## Batching -/

section Batching

variable {α : Type}

theorem chunks_nil : chunks 1000 ([] : List α) = [] := by
  simp [chunks]

theorem chunks_short (l : List α) (h0 : l ≠ []) (hl : l.length ≤ 1000) :
    chunks 1000 l = [l] := by
  have hpos : 0 < l.length := List.length_pos.mpr h0
  have hk : (l.length + 1000 - 1) / 1000 = 1 := by omega
  unfold chunks
  rw [hk]
  rw [show List.range 1 = [0] from rfl, List.map_cons, List.map_nil, Nat.mul_zero, List.drop_zero,
    List.take_of_length_le hl]

theorem chunks_append (l r : List α) (hl : l.length = 1000) :
    chunks 1000 (l ++ r) = l :: chunks 1000 r := by
  have hk : ((l ++ r).length + 1000 - 1) / 1000 = (r.length + 1000 - 1) / 1000 + 1 := by
    rw [List.length_append]; omega
  unfold chunks
  rw [hk, List.range_succ_eq_map, List.map_cons, List.map_map]
  congr 1
  · simp [List.take_append_of_le_length (Nat.le_of_eq hl.symm), ← hl]
  · apply List.map_congr_left
    intro i _
    have : 1000 * (i + 1) = l.length + 1000 * i := by omega
    simp only [Function.comp, Nat.succ_eq_add_one, this, List.drop_append]

theorem chunks_step (xs : List α) (h0 : xs ≠ []) :
    chunks 1000 xs = xs.take 1000 :: chunks 1000 (xs.drop 1000) := by
  by_cases hl : xs.length ≤ 1000
  · rw [chunks_short xs h0 hl, List.take_of_length_le hl, List.drop_of_length_le hl, chunks_nil]
  · have ht : (xs.take 1000).length = 1000 := by rw [List.length_take]; omega
    conv_lhs => rw [← List.take_append_drop 1000 xs]
    exact chunks_append _ _ ht

theorem length_chunks (xs : List α) : (chunks 1000 xs).length = (xs.length + 999) / 1000 := by
  simp [chunks]

theorem get?_chunks (xs : List α) (i : ℕ) (hi : i < (xs.length + 999) / 1000) :
    (chunks 1000 xs).get? i = some ((xs.drop (1000 * i)).take 1000) := by
  unfold chunks
  rw [List.get?_eq_getElem?, List.getElem?_map, List.getElem?_range (by omega)]
  rfl

theorem mem_chunks (xs b : List α) (hb : b ∈ chunks 1000 xs) :
    ∃ i, 1000 * i < xs.length ∧ b = (xs.drop (1000 * i)).take 1000 := by
  unfold chunks at hb
  rw [List.mem_map] at hb
  obtain ⟨i, hi, rfl⟩ := hb
  rw [List.mem_range] at hi
  exact ⟨i, by omega, rfl⟩

theorem join_chunks (n : ℕ) : ∀ xs : List α, xs.length ≤ n → (chunks 1000 xs).flatten = xs := by
  induction n with
  | zero =>
    intro xs h
    have : xs = [] := List.length_eq_zero.mp (Nat.le_zero.mp h)
    rw [this, chunks_nil]; rfl
  | succ n ih =>
    intro xs h
    by_cases h0 : xs = []
    · rw [h0, chunks_nil]; rfl
    · have hpos : 0 < xs.length := List.length_pos.mpr h0
      rw [chunks_step xs h0, List.flatten_cons, ih _ (by rw [List.length_drop]; omega),
        List.take_append_drop]

theorem foldl_push_flush (xs : List CSVProperty) :
    ∀ st : Producer, st.batch.length < 1000 →
      (xs.foldl Producer.push st).flush = st.sent ++ chunks 1000 (st.batch ++ xs) := by
  induction xs with
  | nil =>
    intro st hst
    rw [List.foldl_nil, List.append_nil]
    unfold Producer.flush
    by_cases h : 0 < st.batch.length
    · rw [if_pos h, chunks_short _ (List.length_pos.mp h) (Nat.le_of_lt hst)]
    · rw [if_neg h, List.length_eq_zero.mp (Nat.le_zero.mp (Nat.not_lt.mp h)), chunks_nil,
        List.append_nil]
  | cons x xs ih =>
    intro st hst
    rw [List.foldl_cons]
    have hlen : (st.batch ++ [x]).length = st.batch.length + 1 := by simp
    have hsplit : st.batch ++ x :: xs = (st.batch ++ [x]) ++ xs := by simp
    have hpush : st.push x = if batchSize ≤ (st.batch ++ [x]).length then
        ⟨[], st.sent ++ [st.batch ++ [x]]⟩ else ⟨st.batch ++ [x], st.sent⟩ := rfl
    rw [hpush]
    by_cases h : batchSize ≤ (st.batch ++ [x]).length
    · rw [if_pos h, ih _ (by simp), hsplit,
        chunks_append (st.batch ++ [x]) xs (by unfold batchSize at h; omega)]
      simp
    · rw [if_neg h, ih _ (by unfold batchSize at h; simp only []; omega), hsplit]

theorem readLoop_eq_foldl (pf : FloatParser) (indices : Indices) (reads : List ReadResult) :
    ∀ st st2 : Producer, readLoop pf indices reads st = some st2 →
      st2 = (accepted pf indices reads).foldl Producer.push st := by
  induction reads with
  | nil =>
    intro st st2 h
    simpa [readLoop, accepted] using h.symm
  | cons r rest ih =>
    intro st st2 h
    cases r with
    | failure msg =>
      unfold readLoop at h
      unfold accepted
      by_cases hm : msg = "EOF"
      · rw [if_pos hm] at h
        rw [if_pos hm]
        simpa using h.symm
      · rw [if_neg hm] at h
        rw [if_neg hm]
        exact ih _ _ h
    | record row =>
      unfold readLoop at h
      unfold accepted
      cases hp : parseProperty pf row indices with
      | error f =>
        rw [hp] at h
        cases f with
        | indexOutOfRange => simp at h
        | parse e => exact ih _ _ h
      | ok prop =>
        rw [hp] at h
        dsimp only at h ⊢
        by_cases hr : rejected prop = true
        · rw [if_pos hr] at h
          rw [if_pos hr]
          exact ih _ _ h
        · rw [if_neg hr] at h
          rw [if_neg hr, List.foldl_cons]
          exact ih _ _ h

theorem ingest_eq_sendAll (pf : FloatParser) (indices : Indices) (reads : List ReadResult)
    (batches : List (List CSVProperty)) (h : ingest pf indices reads = some batches) :
    batches = sendAll (accepted pf indices reads) := by
  unfold ingest at h
  cases hl : readLoop pf indices reads Producer.start with
  | none => rw [hl] at h; simp at h
  | some st =>
    rw [hl] at h
    simp only [Option.map_some', Option.some.injEq] at h
    rw [← h, readLoop_eq_foldl pf indices reads _ _ hl]
    rfl

/-- C3. Batching equals chunking: the batches sent for a sequence of accepted
records are its consecutive chunks of 1000 records in input order; no batch is
empty or longer than 1000, their concatenation is the accepted sequence, every
batch but the last holds exactly 1000 records, and the last one is shorter
exactly when the number of accepted records is not a multiple of 1000. -/
theorem sendAll_eq_chunks (records : List CSVProperty) :
    sendAll records = chunks 1000 records ∧
    (∀ b ∈ sendAll records, b ≠ [] ∧ b.length ≤ 1000) ∧
    (sendAll records).flatten = records ∧
    (∀ i b, (sendAll records).get? i = some b → i + 1 < (sendAll records).length →
      b.length = 1000) ∧
    ((∃ b, (sendAll records).getLast? = some b ∧ b.length < 1000) ↔
      records.length % 1000 ≠ 0) := by
  have hmain : sendAll records = chunks 1000 records := by
    unfold sendAll
    rw [foldl_push_flush records Producer.start (by simp [Producer.start])]
    simp [Producer.start]
  rw [hmain]
  refine ⟨rfl, ?_, join_chunks _ _ (Nat.le_refl _), ?_, ?_⟩
  · intro b hb
    obtain ⟨i, hi, rfl⟩ := mem_chunks _ _ hb
    constructor
    · intro hnil
      have := congrArg List.length hnil
      rw [List.length_take, List.length_drop, List.length_nil] at this
      omega
    · rw [List.length_take]; omega
  · intro i b hb hi
    rw [length_chunks] at hi
    rw [get?_chunks _ _ (by omega)] at hb
    have := Option.some.inj hb
    rw [← this, List.length_take, List.length_drop]
    omega
  · rw [List.getLast?_eq_getElem?, length_chunks, ← List.get?_eq_getElem?]
    constructor
    · rintro ⟨b, hb, hlt⟩
      by_cases hz : (records.length + 999) / 1000 = 0
      · have hnil : chunks 1000 records = [] :=
          List.length_eq_zero.mp (by rw [length_chunks]; exact hz)
        rw [hnil] at hb
        simp at hb
      · rw [get?_chunks _ _ (by omega)] at hb
        have := Option.some.inj hb
        rw [← this, List.length_take, List.length_drop] at hlt
        omega
    · intro hmod
      refine ⟨_, get?_chunks _ _ (by omega), ?_⟩
      rw [List.length_take, List.length_drop]
      omega

/-- C3 at a concrete input: 2001 accepted records are sent as two full batches
and a last batch of one record. -/
theorem sendAll_eq_chunks_witness :
    (sendAll (List.replicate 2001 (⟨7, .nan, .nan, .nan, "", none, none, 1⟩ : CSVProperty))).map
      List.length = [1000, 1000, 1] := by
  rw [(sendAll_eq_chunks _).1]
  unfold chunks
  rw [List.length_replicate, List.map_map,
    show (2001 + 1000 - 1) / 1000 = 3 from rfl, show List.range 3 = [0, 1, 2] from rfl]
  simp only [List.map_cons, List.map_nil, Function.comp, List.length_take, List.length_drop,
    List.length_replicate]
  rfl

end Batching

/-! ## The filter -/

theorem foldl_push_mem (xs : List CSVProperty) :
    ∀ st : Producer, ∀ b ∈ (xs.foldl Producer.push st).flush, ∀ p ∈ b,
      p ∈ xs ∨ p ∈ st.batch ∨ ∃ c ∈ st.sent, p ∈ c := by
  induction xs with
  | nil =>
    intro st b hb p hp
    rw [List.foldl_nil] at hb
    unfold Producer.flush at hb
    by_cases h : 0 < st.batch.length
    · rw [if_pos h, List.mem_append, List.mem_singleton] at hb
      rcases hb with hb | hb
      · exact Or.inr (Or.inr ⟨b, hb, hp⟩)
      · exact Or.inr (Or.inl (hb ▸ hp))
    · rw [if_neg h] at hb
      exact Or.inr (Or.inr ⟨b, hb, hp⟩)
  | cons x xs ih =>
    intro st b hb p hp
    rw [List.foldl_cons] at hb
    have hpush : st.push x = if batchSize ≤ (st.batch ++ [x]).length then
        ⟨[], st.sent ++ [st.batch ++ [x]]⟩ else ⟨st.batch ++ [x], st.sent⟩ := rfl
    rcases ih _ b hb p hp with h | h | ⟨c, hc, hpc⟩
    · exact Or.inl (List.mem_cons_of_mem _ h)
    · rw [hpush] at h
      by_cases hfull : batchSize ≤ (st.batch ++ [x]).length
      · rw [if_pos hfull] at h
        simp at h
      · rw [if_neg hfull] at h
        rcases List.mem_append.mp h with h | h
        · exact Or.inr (Or.inl h)
        · exact Or.inl (by rw [List.mem_singleton.mp h]; exact List.mem_cons_self _ _)
    · rw [hpush] at hc
      by_cases hfull : batchSize ≤ (st.batch ++ [x]).length
      · rw [if_pos hfull] at hc
        rcases List.mem_append.mp hc with hc | hc
        · exact Or.inr (Or.inr ⟨c, hc, hpc⟩)
        · rw [List.mem_singleton.mp hc] at hpc
          rcases List.mem_append.mp hpc with h | h
          · exact Or.inr (Or.inl h)
          · exact Or.inl (by rw [List.mem_singleton.mp h]; exact List.mem_cons_self _ _)
      · rw [if_neg hfull] at hc
        exact Or.inr (Or.inr ⟨c, hc, hpc⟩)

theorem accepted_not_rejected (pf : FloatParser) (indices : Indices) (reads : List ReadResult) :
    ∀ p ∈ accepted pf indices reads, rejected p = false := by
  induction reads with
  | nil => intro p hp; simp [accepted] at hp
  | cons r rest ih =>
    intro p hp
    cases r with
    | failure msg =>
      unfold accepted at hp
      by_cases hm : msg = "EOF"
      · rw [if_pos hm] at hp; simp at hp
      · rw [if_neg hm] at hp; exact ih p hp
    | record row =>
      unfold accepted at hp
      cases hparse : parseProperty pf row indices with
      | error f => rw [hparse] at hp; exact ih p hp
      | ok prop =>
        rw [hparse] at hp
        dsimp only at hp
        by_cases hr : rejected prop = true
        · rw [if_pos hr] at hp; exact ih p hp
        · rw [if_neg hr] at hp
          rcases List.mem_cons.mp hp with h | h
          · rw [h]; simpa using hr
          · exact ih p h

/-- What the filter of line 153 does guarantee: no record of a sent batch has a
zero coordinate or a price that compares `<= 0`. -/
theorem ingest_not_rejected (pf : FloatParser) (indices : Indices) (reads : List ReadResult)
    (batches : List (List CSVProperty)) (h : ingest pf indices reads = some batches) :
    ∀ b ∈ batches, ∀ p ∈ b,
      p.GeoLat.eqZero = false ∧ p.GeoLng.eqZero = false ∧ p.Price.leZero = false := by
  intro b hb p hp
  rw [ingest_eq_sendAll pf indices reads batches h] at hb
  have hmem : p ∈ accepted pf indices reads := by
    rcases foldl_push_mem _ Producer.start b hb p hp with h | h | ⟨c, hc, _⟩
    · exact h
    · simp [Producer.start] at h
    · simp [Producer.start] at hc
  have := accepted_not_rejected pf indices reads p hmem
  unfold rejected at this
  simpa [Bool.or_eq_false_iff, and_assoc] using this

/-- C1. The filter lets a not-a-number price through: the data row with price
field `NaN` parses, passes the filter of line 153 and is sent in a batch,
although its price is not strictly greater than 0. -/
theorem nan_price_is_batched :
    ingest ParseFloat (buildIndices required)
        [.record ["7", "55.0", "83.0", "NaN", "", "2", "54.3", "1"]] =
      some [[⟨7, .fin false 550 1, .fin false 830 1, .nan, "", some 2,
              some (.fin false 543 1), 1⟩]] ∧
    F64.gtZero .nan = false := by
  decide

/-- C6. A row shorter than the header is not tolerated: with the column mapping
of the eight required columns, the one-field row `7` makes `parseProperty`
index the row out of range, and the read loop ends with that fault instead of
sending any batch. -/
theorem short_row_faults :
    hasRequired (buildIndices required) = true ∧
    parseProperty ParseFloat ["7"] (buildIndices required) = .error .indexOutOfRange ∧
    ingest ParseFloat (buildIndices required) [.record ["7"]] = none := by
  decide

/-! ## `parseProperty` -/

theorem floatField_error (pf : FloatParser) (s : String) (e : ParseErr) (f : Fault)
    (h : floatField pf s e = .error f) : s ≠ "" ∧ (pf s).2 ≠ none := by
  unfold floatField at h
  by_cases hs : s ≠ ""
  · rw [if_pos hs] at h
    refine ⟨hs, ?_⟩
    rcases hpf : pf s with ⟨v, _ | err⟩
    · rw [hpf] at h; simp at h
    · simp
  · rw [if_neg hs] at h; simp at h

theorem floatField_error_parse (pf : FloatParser) (s : String) (e : ParseErr) (f : Fault)
    (h : floatField pf s e = .error f) : f = .parse e := by
  unfold floatField at h
  by_cases hs : s ≠ ""
  · rw [if_pos hs] at h
    rcases hpf : pf s with ⟨v, _ | err⟩
    · rw [hpf] at h; simp at h
    · rw [hpf] at h
      simp only [Except.error.injEq] at h
      exact h.symm
  · rw [if_neg hs] at h; simp at h

theorem floatField_ok (pf : FloatParser) (s : String) (e : ParseErr) (v : F64)
    (h : floatField pf s e = .ok v) : ¬ (s ≠ "" ∧ (pf s).2 ≠ none) := by
  unfold floatField at h
  rintro ⟨hs, hne⟩
  rw [if_pos hs] at h
  rcases hpf : pf s with ⟨w, _ | err⟩
  · rw [hpf] at hne; exact hne rfl
  · rw [hpf] at h; simp at h

theorem roomsField_none (s : String) (h : (Atoi s).2 ≠ none) : roomsField s = none := by
  unfold roomsField
  split
  · rcases hA : Atoi s with ⟨v, _ | err⟩
    · rw [hA] at h; exact absurd rfl h
    · rfl
  · rfl

theorem areaField_none (pf : FloatParser) (s : String) (h : (pf s).2 ≠ none) :
    areaField pf s = none := by
  unfold areaField
  split
  · rcases hA : pf s with ⟨v, _ | err⟩
    · rw [hA] at h; exact absurd rfl h
    · rfl
  · rfl

/-- C5, as the code has it. When the eight required indices are within the row,
`parseProperty` ends without a fault, and it returns an error exactly when the
trimmed identifier is not an integer or a non-empty trimmed latitude, longitude
or price is not a float (an empty one is left at zero without an error); the
room count, area and realty type never decide it, and an unparsable room count
or area is left absent. -/
theorem parseProperty_error_iff (pf : FloatParser) (record : List String) (indices : Indices)
    (idRaw latRaw lngRaw priceRaw nameRaw roomsRaw areaRaw realtyRaw : String)
    (h1 : record.get? (indices.at "id") = some idRaw)
    (h2 : record.get? (indices.at "geo_lat") = some latRaw)
    (h3 : record.get? (indices.at "geo_lng") = some lngRaw)
    (h4 : record.get? (indices.at "price") = some priceRaw)
    (h5 : record.get? (indices.at "name") = some nameRaw)
    (h6 : record.get? (indices.at "rooms_type_id") = some roomsRaw)
    (h7 : record.get? (indices.at "total_area") = some areaRaw)
    (h8 : record.get? (indices.at "realty_type_id") = some realtyRaw) :
    parseProperty pf record indices ≠ .error .indexOutOfRange ∧
    ((∃ e, parseProperty pf record indices = .error (.parse e)) ↔
      ((Atoi (Trim idRaw)).2 ≠ none ∨
       (Trim latRaw ≠ "" ∧ (pf (Trim latRaw)).2 ≠ none) ∨
       (Trim lngRaw ≠ "" ∧ (pf (Trim lngRaw)).2 ≠ none) ∨
       (Trim priceRaw ≠ "" ∧ (pf (Trim priceRaw)).2 ≠ none))) ∧
    (∀ p, parseProperty pf record indices = .ok p →
      ((Atoi (Trim roomsRaw)).2 ≠ none → p.RoomsTypeID = none) ∧
      ((pf (Trim areaRaw)).2 ≠ none → p.TotalArea = none)) := by
  unfold parseProperty
  simp only [field, h1, h2, h3, h4, h5, h6, h7, h8]
  rcases hA : Atoi (Trim idRaw) with ⟨id, _ | err⟩
  · rcases hlat : floatField pf (Trim latRaw) .latitude with f | lat
    · have := floatField_error _ _ _ _ hlat
      have hf := floatField_error_parse _ _ _ _ hlat
      subst hf
      simp [this]
    · have hlat2 := floatField_ok _ _ _ _ hlat
      rcases hlng : floatField pf (Trim lngRaw) .longitude with f | lng
      · have := floatField_error _ _ _ _ hlng
        have hf := floatField_error_parse _ _ _ _ hlng
        subst hf
        simp [this]
      · have hlng2 := floatField_ok _ _ _ _ hlng
        rcases hpr : floatField pf (Trim priceRaw) .price with f | price
        · have := floatField_error _ _ _ _ hpr
          have hf := floatField_error_parse _ _ _ _ hpr
          subst hf
          simp [this]
        · have hpr2 := floatField_ok _ _ _ _ hpr
          refine ⟨by simp, ?_, ?_⟩
          · constructor
            · rintro ⟨e, he⟩
              simp at he
            · rintro (h | h | h | h)
              · exact absurd rfl h
              · exact absurd h hlat2
              · exact absurd h hlng2
              · exact absurd h hpr2
          · intro p hp
            simp only [Except.ok.injEq] at hp
            subst hp
            exact ⟨roomsField_none _, areaField_none pf _⟩
  · simp

/-- C5 at a concrete row: every hypothesis of `parseProperty_error_iff` holds
for the eight-field row of the scenario and the required header. -/
theorem parseProperty_error_iff_witness :
    parseProperty ParseFloat ["7", "55.0", "83.0", "3500000", "", "2", "54.3", "1"]
        (buildIndices required) ≠ .error .indexOutOfRange ∧
    ((∃ e, parseProperty ParseFloat ["7", "55.0", "83.0", "3500000", "", "2", "54.3", "1"]
        (buildIndices required) = .error (.parse e)) ↔
      ((Atoi (Trim "7")).2 ≠ none ∨
       (Trim "55.0" ≠ "" ∧ (ParseFloat (Trim "55.0")).2 ≠ none) ∨
       (Trim "83.0" ≠ "" ∧ (ParseFloat (Trim "83.0")).2 ≠ none) ∨
       (Trim "3500000" ≠ "" ∧ (ParseFloat (Trim "3500000")).2 ≠ none))) ∧
    (∀ p, parseProperty ParseFloat ["7", "55.0", "83.0", "3500000", "", "2", "54.3", "1"]
        (buildIndices required) = .ok p →
      ((Atoi (Trim "2")).2 ≠ none → p.RoomsTypeID = none) ∧
      ((ParseFloat (Trim "54.3")).2 ≠ none → p.TotalArea = none)) :=
  parseProperty_error_iff ParseFloat ["7", "55.0", "83.0", "3500000", "", "2", "54.3", "1"]
    (buildIndices required) "7" "55.0" "83.0" "3500000" "" "2" "54.3" "1"
    (by decide) (by decide) (by decide) (by decide) (by decide) (by decide) (by decide)
    (by decide)

/-- C5 as stated fails: the empty latitude field is not parsable as a float
(`ParseFloat` reports it malformed), yet `parseProperty` returns a record, with
the latitude left at zero, and no error. -/
theorem empty_latitude_is_no_error :
    (ParseFloat (Trim "")).2 = some .malformed ∧
    parseProperty ParseFloat ["7", "", "83.0", "3500000", "", "2", "54.3", "1"]
        (buildIndices required) =
      .ok ⟨7, F64.zero, .fin false 830 1, .fin false 3500000 0, "", some 2,
            some (.fin false 543 1), 1⟩ := by
  decide

/-! ## The persisted property type -/

theorem parseProperty_realty (pf : FloatParser) (record : List String) (indices : Indices)
    (realtyRaw : String) (p : CSVProperty)
    (hraw : record.get? (indices.at "realty_type_id") = some realtyRaw)
    (hp : parseProperty pf record indices = .ok p) :
    p.RealtyTypeID = realtyField (Trim realtyRaw) := by
  unfold parseProperty at hp
  simp only [field, hraw] at hp
  split at hp
  · simp at hp
  · split at hp
    · simp at hp
    · split at hp
      · simp at hp
      · split at hp
        · simp at hp
        · split at hp
          · simp at hp
          · split at hp
            · simp at hp
            · split at hp
              · simp at hp
              · split at hp
                · simp at hp
                · split at hp
                  · simp at hp
                  · split at hp
                    · simp at hp
                    · split at hp
                      · simp at hp
                      · simp only [Except.ok.injEq] at hp
                        rw [← hp]

/-- C10, as the code has it. For a row that parses, the property type handed to
the `INSERT` is the apartment category when the non-empty trimmed realty type
field is not an integer or is the code 1, the house category for 2, the
commercial category for 3, and the category "other" both for an empty field and
for every other integer code. -/
theorem property_type_of_field (pf : FloatParser) (record : List String) (indices : Indices)
    (realtyRaw : String) (p : CSVProperty)
    (hraw : record.get? (indices.at "realty_type_id") = some realtyRaw)
    (hp : parseProperty pf record indices = .ok p) :
    (Trim realtyRaw ≠ "" → (Atoi (Trim realtyRaw)).2 ≠ none →
      (insertRowOf p).property_type = "Квартира") ∧
    (Atoi (Trim realtyRaw) = (1, none) → (insertRowOf p).property_type = "Квартира") ∧
    (Atoi (Trim realtyRaw) = (2, none) → (insertRowOf p).property_type = "Дом") ∧
    (Atoi (Trim realtyRaw) = (3, none) → (insertRowOf p).property_type = "Коммерческая") ∧
    (Trim realtyRaw = "" → (insertRowOf p).property_type = "Другое") ∧
    (∀ v, Atoi (Trim realtyRaw) = (v, none) → v ≠ 1 → v ≠ 2 → v ≠ 3 →
      (insertRowOf p).property_type = "Другое") := by
  have hcode := parseProperty_realty pf record indices realtyRaw p hraw hp
  have hrow : (insertRowOf p).property_type = propertyTypeOf p.RealtyTypeID := rfl
  rw [hrow, hcode]
  have hempty : Atoi "" = (0, some .malformed) := by decide
  refine ⟨?_, ?_, ?_, ?_, ?_, ?_⟩
  · intro hne herr
    unfold realtyField
    rw [if_pos hne]
    rcases hA : Atoi (Trim realtyRaw) with ⟨v, _ | err⟩
    · rw [hA] at herr; exact absurd rfl herr
    · rfl
  · intro hA
    have hne : Trim realtyRaw ≠ "" := by
      intro h0; rw [h0, hempty] at hA; simp at hA
    unfold realtyField
    rw [if_pos hne, hA]
    rfl
  · intro hA
    have hne : Trim realtyRaw ≠ "" := by
      intro h0; rw [h0, hempty] at hA; simp at hA
    unfold realtyField
    rw [if_pos hne, hA]
    rfl
  · intro hA
    have hne : Trim realtyRaw ≠ "" := by
      intro h0; rw [h0, hempty] at hA; simp at hA
    unfold realtyField
    rw [if_pos hne, hA]
    rfl
  · intro h0
    unfold realtyField
    rw [if_neg (by simpa using h0)]
    rfl
  · intro v hA h1 h2 h3
    have hne : Trim realtyRaw ≠ "" := by
      intro h0; rw [h0, hempty] at hA; simp at hA
    unfold realtyField
    rw [if_pos hne, hA]
    simp only [propertyTypeOf, h1, h2, h3, if_false]

/-- C10 at a concrete row: the hypotheses of `property_type_of_field` hold for
the row of the scenario, whose realty type field is `1`. -/
theorem property_type_of_field_witness :
    (insertRowOf ⟨7, .fin false 550 1, .fin false 830 1, .fin false 3500000 0, "", some 2,
        some (.fin false 543 1), 1⟩).property_type = "Квартира" :=
  (property_type_of_field ParseFloat ["7", "55.0", "83.0", "3500000", "", "2", "54.3", "1"]
    (buildIndices required) "1"
    ⟨7, .fin false 550 1, .fin false 830 1, .fin false 3500000 0, "", some 2,
      some (.fin false 543 1), 1⟩ (by decide) (by decide)).2.1 (by decide)

/-- C10 as stated fails: the unknown realty type code `4` is persisted as the
category "other", not as the apartment category, and so is the empty field. -/
theorem unknown_code_is_other :
    ((parseProperty ParseFloat ["7", "55.0", "83.0", "3500000", "", "2", "54.3", "4"]
        (buildIndices required)).toOption.map
      fun p => (insertBatch ⟨false, fun _ => false, false⟩ [p]).rows.map
        fun r => r.property_type) = some ["Другое"] ∧
    ((parseProperty ParseFloat ["7", "55.0", "83.0", "3500000", "", "2", "54.3", ""]
        (buildIndices required)).toOption.map
      fun p => (insertBatch ⟨false, fun _ => false, false⟩ [p]).rows.map
        fun r => r.property_type) = some ["Другое"] ∧
    "Другое" ≠ "Квартира" := by
  decide

/-! ## `insertBatch` -/

theorem insertLoop_le (store : StoreOutcomes) (batch : List CSVProperty) :
    ∀ i aborted, (insertLoop store i aborted batch).1 ≤ batch.length := by
  induction batch with
  | nil => intro i aborted; simp [insertLoop]
  | cons prop rest ih =>
    intro i aborted
    unfold insertLoop
    rw [List.length_cons]
    by_cases h : (aborted || store.execFails i) = true
    · rw [if_pos h]
      exact Nat.le_succ_of_le (ih (i + 1) true)
    · rw [if_neg h]
      exact Nat.succ_le_succ (ih (i + 1) false)

theorem insertLoop_aborted (store : StoreOutcomes) (batch : List CSVProperty) :
    ∀ i, insertLoop store i true batch = (0, true, []) := by
  induction batch with
  | nil => intro i; rfl
  | cons prop rest ih =>
    intro i
    unfold insertLoop
    rw [if_pos (by simp)]
    exact ih (i + 1)

theorem insertLoop_healthy (store : StoreOutcomes) (batch : List CSVProperty) :
    ∀ i, (∀ j, j < batch.length → store.execFails (i + j) = false) →
      insertLoop store i false batch = (batch.length, false, batch.map insertRowOf) := by
  induction batch with
  | nil => intro i _; rfl
  | cons prop rest ih =>
    intro i h
    have h0 : store.execFails i = false := by
      have := h 0 (by simp)
      simpa using this
    have hrest : ∀ j, j < rest.length → store.execFails (i + 1 + j) = false := by
      intro j hj
      have := h (j + 1) (by simp; omega)
      rw [show i + 1 + j = i + (j + 1) by omega]
      exact this
    unfold insertLoop
    rw [if_neg (by simp [h0]), ih (i + 1) hrest]
    rfl

theorem insertLoop_fail (store : StoreOutcomes) (batch : List CSVProperty) :
    ∀ i, (∃ j, j < batch.length ∧ store.execFails (i + j) = true) →
      (insertLoop store i false batch).2.1 = true := by
  induction batch with
  | nil =>
    intro i h
    obtain ⟨j, hj, _⟩ := h
    simp at hj
  | cons prop rest ih =>
    intro i h
    obtain ⟨j, hj, hf⟩ := h
    unfold insertLoop
    by_cases h0 : store.execFails i = true
    · rw [if_pos (by simp [h0]), insertLoop_aborted]
    · rw [if_neg (by simp [h0])]
      apply ih (i + 1)
      cases j with
      | zero => exact absurd (by simpa using hf) h0
      | succ k =>
        refine ⟨k, by simpa using hj, ?_⟩
        rw [show i + 1 + k = i + (k + 1) by omega]
        exact hf

theorem commitErr_healthy (store : StoreOutcomes) (batch : List CSVProperty)
    (h : ∀ i, i < batch.length → store.execFails i = false) :
    commitErr store batch = store.commitFails := by
  unfold commitErr
  rw [insertLoop_healthy store batch 0 (by intro j hj; rw [Nat.zero_add]; exact h j hj)]
  simp

/-- The defect behind the scenario of the 999 records: one refused `INSERT`
aborts the transaction, so `Commit` fails and `insertBatch` returns 0 and an
error, with nothing committed. -/
theorem insertBatch_exec_failure (store : StoreOutcomes) (batch : List CSVProperty)
    (hb : store.beginFails = false)
    (h : ∃ i, i < batch.length ∧ store.execFails i = true) :
    insertBatch store batch = ⟨0, true, false, []⟩ := by
  have hc : commitErr store batch = true := by
    unfold commitErr
    rw [insertLoop_fail store batch 0
      (by obtain ⟨i, hi, hf⟩ := h; exact ⟨i, hi, by rw [Nat.zero_add]; exact hf⟩)]
    rfl
  unfold insertBatch
  rw [hb, hc]
  rfl

/-- C4, as the code has it. The count returned by `insertBatch` never exceeds
the batch length; it equals the batch length, with the transaction committed
and no error, when `Begin` and `Commit` succeed and no insert fails; and when
`Begin` fails, or `Commit` fails, it returns 0 and an error and nothing is
committed. -/
theorem insertBatch_count (store : StoreOutcomes) (batch : List CSVProperty) :
    (insertBatch store batch).count ≤ batch.length ∧
    (store.beginFails = false → commitErr store batch = false →
      (∀ i, i < batch.length → store.execFails i = false) →
      (insertBatch store batch).count = batch.length ∧
      (insertBatch store batch).committed = true ∧
      (insertBatch store batch).failed = false) ∧
    (store.beginFails = true →
      (insertBatch store batch).count = 0 ∧
      (insertBatch store batch).failed = true ∧
      (insertBatch store batch).committed = false) ∧
    (store.beginFails = false → commitErr store batch = true →
      (insertBatch store batch).count = 0 ∧
      (insertBatch store batch).failed = true ∧
      (insertBatch store batch).committed = false) := by
  refine ⟨?_, ?_, ?_, ?_⟩
  · unfold insertBatch
    split
    · exact Nat.zero_le _
    · split
      · exact Nat.zero_le _
      · exact insertLoop_le store batch 0 false
  · intro hb hc hall
    have hres : insertBatch store batch =
        ⟨batch.length, false, true, batch.map insertRowOf⟩ := by
      unfold insertBatch
      rw [hb, hc, insertLoop_healthy store batch 0
        (by intro j hj; rw [Nat.zero_add]; exact hall j hj)]
      rfl
    rw [hres]
    exact ⟨rfl, rfl, rfl⟩
  · intro hb
    unfold insertBatch
    rw [hb]
    exact ⟨rfl, rfl, rfl⟩
  · intro hb hc
    unfold insertBatch
    rw [hb, hc]
    exact ⟨rfl, rfl, rfl⟩

/-- C4 at a concrete input: a batch of 1000 records on which `Begin`, every
insert and `Commit` succeed. -/
theorem insertBatch_count_witness :
    (insertBatch ⟨false, fun _ => false, false⟩
        (List.replicate 1000 ⟨7, .nan, .nan, .nan, "", none, none, 1⟩)).count =
      (List.replicate 1000 (⟨7, .nan, .nan, .nan, "", none, none, 1⟩ : CSVProperty)).length ∧
    (insertBatch ⟨false, fun _ => false, false⟩
        (List.replicate 1000 ⟨7, .nan, .nan, .nan, "", none, none, 1⟩)).committed = true ∧
    (insertBatch ⟨false, fun _ => false, false⟩
        (List.replicate 1000 ⟨7, .nan, .nan, .nan, "", none, none, 1⟩)).failed = false :=
  (insertBatch_count ⟨false, fun _ => false, false⟩
    (List.replicate 1000 ⟨7, .nan, .nan, .nan, "", none, none, 1⟩)).2.1 rfl
    (commitErr_healthy _ _ (fun _ _ => rfl)) (fun _ _ => rfl)

/-- C4 as stated fails twice. With no insert failure at all, a failing `Commit`
makes `insertBatch` return 0 for a batch of one record.  And on a batch of 1000
records of which only record 501 is refused, the refused insert aborts the
transaction: `insertBatch` returns 0 and an error, not 999, and nothing is
committed. -/
theorem commit_failure_loses_count :
    ((insertBatch ⟨false, fun _ => false, true⟩
        [⟨7, .fin false 550 1, .fin false 830 1, .fin false 3500000 0, "", some 2,
          some (.fin false 543 1), 1⟩]).count = 0 ∧
      [(⟨7, .fin false 550 1, .fin false 830 1, .fin false 3500000 0, "", some 2,
          some (.fin false 543 1), 1⟩ : CSVProperty)].length = 1) ∧
    insertBatch ⟨false, fun i => i == 500, false⟩
        (List.replicate 1000 ⟨7, .fin false 550 1, .fin false 830 1, .fin false 3500000 0, "",
          some 2, some (.fin false 543 1), 1⟩) = ⟨0, true, false, []⟩ := by
  refine ⟨by decide, ?_⟩
  exact insertBatch_exec_failure _ _ rfl ⟨500, by rw [List.length_replicate]; decide, by decide⟩

/-! ## The cluster query: the cell edge length -/

theorem tile_resolution_eq (zoom z d : ℤ) (h1 : toInt4 zoom = some z)
    (h2 : int4mul 256 (int4shl1 z) = some d) (hd : d ≠ 0) :
    tile_resolution zoom = some (256 * (20037508.34 * 2 / (d : ℚ))) := by
  unfold tile_resolution
  simp only [h1, h2, hd, if_false]

theorem int_part (z : ℕ) (hz : z ≤ 20) :
    toInt4 (wrapInt64 ((z : ℤ) + 2)) = some ((z : ℤ) + 2) ∧
    int4mul 256 (int4shl1 ((z : ℤ) + 2)) = some (256 * 2 ^ (z + 2)) := by
  interval_cases z <;> decide

theorem gridSize_small (z : ℕ) (hz : z ≤ 20) :
    gridSize z = some (256 * (20037508.34 * 2 / (256 * 2 ^ (z + 2)))) := by
  obtain ⟨h1, h2⟩ := int_part z hz
  unfold gridSize
  rw [tile_resolution_eq _ _ _ h1 h2 (by positivity)]
  push_cast
  rfl

theorem gridSize_formula_aux (z : ℕ) (hz : z ≤ 20) :
    gridSize z = some (20037508.34 * 2 / 2 ^ (z + 2)) ∧
    (z + 1 ≤ 20 → gridSize ((z + 1 : ℕ) : ℤ) = some (20037508.34 * 2 / 2 ^ (z + 2) / 2)) := by
  have h := gridSize_small z hz
  have e1 : (256 * (20037508.34 * 2 / (256 * 2 ^ (z + 2))) : ℚ) =
      20037508.34 * 2 / 2 ^ (z + 2) := by
    field_simp
    ring
  have e2 : (256 * (20037508.34 * 2 / (256 * 2 ^ (z + 1 + 2))) : ℚ) =
      20037508.34 * 2 / 2 ^ (z + 2) / 2 := by
    field_simp
    ring
  refine ⟨?_, ?_⟩
  · rw [h, e1]
  · intro hz1
    rw [gridSize_small (z + 1) hz1, e2]

theorem gridSize_one : gridSize 1 = some 5009377.085 := by
  have h := gridSize_small 1 (by norm_num)
  rw [Nat.cast_one] at h
  rw [h]
  norm_num

theorem gridSize_two : gridSize 2 = some 2504688.5425 := by
  have h := gridSize_small 2 (by norm_num)
  rw [Nat.cast_ofNat] at h
  rw [h]
  norm_num

/-- C8, as the code has it. For a requested zoom level `z` from 0 to 20 the cell
edge length is `256 * (20037508.34 * 2 / (256 * 2 ^ (z + 2)))`, that is the
world extent divided by `2 ^ (z + 2)`, and it halves when `z` grows by one. -/
theorem gridSize_formula (z : ℕ) (hz : z ≤ 20) :
    gridSize z = some (256 * (20037508.34 * 2 / (256 * 2 ^ (z + 2)))) ∧
    gridSize z = some (20037508.34 * 2 / 2 ^ (z + 2)) ∧
    (z + 1 ≤ 20 → gridSize ((z + 1 : ℕ) : ℤ) = some (20037508.34 * 2 / 2 ^ (z + 2) / 2)) := by
  exact ⟨gridSize_small z hz, (gridSize_formula_aux z hz).1, (gridSize_formula_aux z hz).2⟩

/-- C8 at zoom level 10. -/
theorem gridSize_formula_witness :
    gridSize ((10 : ℕ) : ℤ) = some (20037508.34 * 2 / 2 ^ (10 + 2)) :=
  (gridSize_formula 10 (by decide)).2.1

/-- C8 as stated fails: at zoom level 0 the cell edge length is 10018754.17,
which is 256 times the world extent divided by `256 * 2 ^ (0 + 2)`; and at zoom
level 21, where `2 ^ (21 + 2)` still fits 32 bits, the product by 256 does not
and the query has no cell edge length at all. -/
theorem gridSize_not_pixel_size :
    gridSize 0 = some 10018754.17 ∧
    (10018754.17 : ℚ) ≠ 20037508.34 * 2 / (256 * 2 ^ (0 + 2)) ∧
    (10018754.17 : ℚ) = 256 * (20037508.34 * 2 / (256 * 2 ^ (0 + 2))) ∧
    toInt4 (2 ^ (21 + 2)) = some (2 ^ (21 + 2)) ∧ gridSize 21 = none := by
  refine ⟨?_, by norm_num, by norm_num, by decide, by decide⟩
  have h := gridSize_small 0 (by norm_num)
  rw [Nat.cast_zero] at h
  rw [h]
  norm_num

/-! ## The cluster query: grouping -/

theorem getClusters_eq (g : Projection) (table : List PropertyRow)
    (minLat maxLat minLng maxLng : ℚ) (zoomLevel : ℤ) (res : ℚ)
    (h : gridSize zoomLevel = some res) :
    getClusters g table minLat maxLat minLng maxLng zoomLevel =
      some (clusters g (tile_grid res
        (raw_points g table (bbox_geom g minLng minLat maxLng maxLat)))) := by
  unfold getClusters
  simp only [h]

theorem getClusters_returns (g : Projection) (table : List PropertyRow)
    (minLat maxLat minLng maxLng : ℚ) (z : ℕ) (hz : z ≤ 20) :
    ∃ cs, getClusters g table minLat maxLat minLng maxLng z = some cs :=
  ⟨_, getClusters_eq g table minLat maxLat minLng maxLng z _ (gridSize_small z hz)⟩

theorem getClusters_fails (g : Projection) (table : List PropertyRow)
    (minLat maxLat minLng maxLng : ℚ) (zoomLevel : ℤ) (h : gridSize zoomLevel = none) :
    getClusters g table minLat maxLat minLng maxLng zoomLevel = none := by
  unfold getClusters
  simp only [h]

theorem raw_points_two :
    raw_points linearProjection [⟨1, 1000, 13.5, 55⟩, ⟨2, 2000, 27, 55⟩]
        (bbox_geom linearProjection 10 50 30 60) =
      [⟨1, 1000, linearProjection.forward 13.5 55⟩, ⟨2, 2000, linearProjection.forward 27 55⟩] := by
  simp [raw_points, bbox_geom, Box.overlaps, linearProjection]
  norm_num

theorem count_map_key {α β : Type} [DecidableEq β] (f : α → β) (l : List α) (b : β) :
    (l.map f).count b = (l.filter fun a => f a = b).length := by
  induction l with
  | nil => rfl
  | cons t ts ih =>
    rw [List.map_cons, List.count_cons, ih, List.filter_cons]
    by_cases h : f t = b
    · simp [h]
    · simp [h]

theorem clusters_sum (g : Projection) (tg : List TilePoint) :
    ((clusters g tg).map fun c => c.PointCount).sum = tg.length := by
  unfold clusters
  rw [List.map_map]
  have h := List.sum_map_count_dedup_eq_length (tg.map fun t => t.grid_cell)
  rw [List.length_map] at h
  rw [← h]
  congr 1
  apply List.map_congr_left
  intro cell _
  simp only [Function.comp, clusterOf]
  exact (count_map_key (fun t : TilePoint => t.grid_cell) tg cell).symm

theorem clusters_ids (g : Projection) (tg : List TilePoint) :
    (clusters g tg).map (fun c => c.ClusterID) = (tg.map fun t => t.grid_cell).dedup := by
  unfold clusters
  rw [List.map_map]
  conv_rhs => rw [← List.map_id (List.dedup _)]
  apply List.map_congr_left
  intro cell _
  rfl

theorem mem_clusters (g : Projection) (tg : List TilePoint) (c : Cluster) (hc : c ∈ clusters g tg) :
    c.PointCount = (tg.filter fun t => t.grid_cell = c.ClusterID).length := by
  unfold clusters at hc
  rw [List.mem_map] at hc
  obtain ⟨cell, _, rfl⟩ := hc
  rfl

theorem length_raw_points (g : Projection) (table : List PropertyRow) (bbox : Box) :
    (raw_points g table bbox).length =
      table.countP fun p => bbox.overlaps (g.forward p.longitude p.latitude) := by
  unfold raw_points
  rw [List.length_map, List.countP_eq_length_filter]

theorem filter_tile_grid (res : ℚ) (raw : List RawPoint) (cell : ℚ × ℚ) :
    ((tile_grid res raw).filter fun t => t.grid_cell = cell).length =
      (raw.filter fun r => ST_SnapToGrid r.geom res res = cell).length := by
  unfold tile_grid
  rw [List.filter_map, List.length_map]
  rfl

/-- C2. The partition property of `getClusters`: when it returns clusters, their
point counts add up to the number of stored points whose projection lies in
the projected bounding box of the viewport; the returned cluster identifiers
are pairwise distinct, every such point has the cluster of the grid cell it
snaps to among them, and the point count of each cluster is the number of such
points that snap to its cell. -/
theorem getClusters_partition (g : Projection) (table : List PropertyRow)
    (minLat maxLat minLng maxLng : ℚ) (zoomLevel : ℤ) (cs : List Cluster)
    (h : getClusters g table minLat maxLat minLng maxLng zoomLevel = some cs) :
    (cs.map fun c => c.PointCount).sum =
      table.countP (fun p =>
        (bbox_geom g minLng minLat maxLng maxLat).overlaps (g.forward p.longitude p.latitude)) ∧
    ∃ res, gridSize zoomLevel = some res ∧
      (cs.map fun c => c.ClusterID).Nodup ∧
      (∀ p ∈ table,
        (bbox_geom g minLng minLat maxLng maxLat).overlaps (g.forward p.longitude p.latitude) = true →
        ∃ c ∈ cs, c.ClusterID = ST_SnapToGrid (g.forward p.longitude p.latitude) res res) ∧
      (∀ c ∈ cs, c.PointCount =
        table.countP fun p =>
          (bbox_geom g minLng minLat maxLng maxLat).overlaps (g.forward p.longitude p.latitude) &&
          decide (ST_SnapToGrid (g.forward p.longitude p.latitude) res res = c.ClusterID)) := by
  cases hres : gridSize zoomLevel with
  | none =>
    unfold getClusters at h
    simp [hres] at h
  | some res =>
    rw [getClusters_eq g table minLat maxLat minLng maxLng zoomLevel res hres] at h
    have hcs := (Option.some.inj h).symm
    subst hcs
    refine ⟨?_, res, rfl, ?_, ?_, ?_⟩
    · rw [clusters_sum, tile_grid, List.length_map, length_raw_points]
    · rw [clusters_ids]
      exact List.nodup_dedup _
    · intro p hp hin
      have hmem : ST_SnapToGrid (g.forward p.longitude p.latitude) res res ∈
          (clusters g (tile_grid res (raw_points g table
            (bbox_geom g minLng minLat maxLng maxLat)))).map (fun c => c.ClusterID) := by
        rw [clusters_ids, List.mem_dedup, tile_grid, List.map_map, raw_points, List.map_map,
          List.mem_map]
        exact ⟨p, List.mem_filter.mpr ⟨hp, hin⟩, rfl⟩
      obtain ⟨c, hc, hid⟩ := List.mem_map.mp hmem
      exact ⟨c, hc, hid⟩
    · intro c hc
      rw [mem_clusters g _ c hc, filter_tile_grid, raw_points, List.filter_map, List.length_map,
        List.filter_filter, List.countP_eq_length_filter]
      congr 1
      apply List.filter_congr
      intro p _
      simp [Function.comp, Bool.and_comm]

/-- C2 at a concrete table: two stored points of one latitude, both inside the
viewport, at zoom level 1. -/
theorem getClusters_partition_witness :
    ∃ cs, getClusters linearProjection [⟨1, 1000, 13.5, 55⟩, ⟨2, 2000, 27, 55⟩] 50 60 10 30 1 =
        some cs ∧
      (cs.map fun c => c.PointCount).sum = 2 := by
  refine ⟨_, getClusters_eq _ _ _ _ _ _ _ _ gridSize_one, ?_⟩
  rw [(getClusters_partition linearProjection [⟨1, 1000, 13.5, 55⟩, ⟨2, 2000, 27, 55⟩]
    50 60 10 30 1 _ (getClusters_eq _ _ _ _ _ _ _ _ gridSize_one)).1]
  simp [bbox_geom, Box.overlaps, linearProjection]
  norm_num


theorem length_clusters_le (g : Projection) (tg : List TilePoint) :
    (clusters g tg).length ≤ tg.length := by
  unfold clusters
  rw [List.length_map]
  calc (List.dedup (tg.map fun t => t.grid_cell)).length
      ≤ (tg.map fun t => t.grid_cell).length := (List.dedup_sublist _).length_le
    _ = tg.length := List.length_map _ _

theorem length_clusters_pos (g : Projection) (tg : List TilePoint) (h : tg ≠ []) :
    0 < (clusters g tg).length := by
  unfold clusters
  rw [List.length_map]
  cases tg with
  | nil => exact absurd rfl h
  | cons t ts =>
    apply List.length_pos_of_mem (a := t.grid_cell)
    rw [List.mem_dedup]
    exact List.mem_cons_self _ _

/-- C9, as the code has it. From zoom level `z` to `z + 1`, for `z` from 0 to 19,
the cell edge length strictly decreases (it halves); and at every zoom level
for which clusters are returned, their number is at most the number of stored
points in the projected bounding box and at least one when there is such a
point.  (The number of clusters itself can drop from one level to the next.) -/
theorem zoom_shrinks_cells (z : ℕ) (hz : z ≤ 19) :
    (∃ r1 r2, gridSize z = some r1 ∧ gridSize ((z + 1 : ℕ) : ℤ) = some r2 ∧
      0 < r2 ∧ r2 < r1 ∧ r2 = r1 / 2) ∧
    (∀ (g : Projection) (table : List PropertyRow) (minLat maxLat minLng maxLng : ℚ)
        (zoomLevel : ℤ) (cs : List Cluster),
      getClusters g table minLat maxLat minLng maxLng zoomLevel = some cs →
      cs.length ≤ table.countP (fun p =>
        (bbox_geom g minLng minLat maxLng maxLat).overlaps (g.forward p.longitude p.latitude)) ∧
      (0 < table.countP (fun p =>
        (bbox_geom g minLng minLat maxLng maxLat).overlaps (g.forward p.longitude p.latitude)) →
        0 < cs.length)) := by
  constructor
  · have h := gridSize_formula_aux z (by omega)
    refine ⟨_, _, h.1, h.2 (by omega), ?_, ?_, rfl⟩
    · positivity
    · have hpos : (0 : ℚ) < 20037508.34 * 2 / 2 ^ (z + 2) := by positivity
      linarith
  · intro g table minLat maxLat minLng maxLng zoomLevel cs h
    cases hres : gridSize zoomLevel with
    | none =>
      unfold getClusters at h
      simp [hres] at h
    | some res =>
      rw [getClusters_eq g table minLat maxLat minLng maxLng zoomLevel res hres] at h
      have hcs := (Option.some.inj h).symm
      subst hcs
      have hlen : (tile_grid res (raw_points g table
          (bbox_geom g minLng minLat maxLng maxLat))).length = table.countP (fun p =>
          (bbox_geom g minLng minLat maxLng maxLat).overlaps
            (g.forward p.longitude p.latitude)) := by
        rw [tile_grid, List.length_map, length_raw_points]
      constructor
      · rw [← hlen]
        exact length_clusters_le _ _
      · intro hpos
        apply length_clusters_pos
        intro hnil
        rw [hnil, List.length_nil] at hlen
        omega

/-- C9 at zoom level 3. -/
theorem zoom_shrinks_cells_witness :
    ∃ r1 r2, gridSize ((3 : ℕ) : ℤ) = some r1 ∧ gridSize ((3 + 1 : ℕ) : ℤ) = some r2 ∧
      0 < r2 ∧ r2 < r1 ∧ r2 = r1 / 2 :=
  (zoom_shrinks_cells 3 (by decide)).1

/-- C9 as stated fails: two stored points of one latitude, at longitudes 13.5
and 27, both inside the viewport, make two clusters at zoom level 1 and a
single cluster of two points at zoom level 2. -/
theorem finer_zoom_merges_clusters :
    (getClusters linearProjection [⟨1, 1000, 13.5, 55⟩, ⟨2, 2000, 27, 55⟩] 50 60 10 30 1).map
        (List.map fun c => (c.ClusterID, c.PointCount)) =
      some [((0, 5009377.085), 1), ((5009377.085, 5009377.085), 1)] ∧
    (getClusters linearProjection [⟨1, 1000, 13.5, 55⟩, ⟨2, 2000, 27, 55⟩] 50 60 10 30 2).map
        (List.map fun c => (c.ClusterID, c.PointCount)) =
      some [((2504688.5425, 5009377.085), 2)] := by
  constructor
  · rw [getClusters_eq _ _ _ _ _ _ _ _ gridSize_one, raw_points_two]
    norm_num [tile_grid, ST_SnapToGrid, snapCoord, rint, clusters, clusterOf, linearProjection,
      -Int.self_sub_floor]
  · rw [getClusters_eq _ _ _ _ _ _ _ _ gridSize_two, raw_points_two]
    norm_num [tile_grid, ST_SnapToGrid, snapCoord, rint, clusters, clusterOf, linearProjection,
      -Int.self_sub_floor]

/-! ## The handler -/

/-- C7, as the code has it. The handler looks only at the five parsed values: it
answers 400 without calling `getClusters` when one of them is zero, which
covers every absent parameter, and otherwise it calls `getClusters` with the
five values and answers 200 or 500; the zoom levels it lets through are the
non-zero integers, negative ones included. -/
theorem getClustersHandler_gate (pf : FloatParser) (core : ClusterArgs → Bool) (q : Query)
    (hpf : (pf "").1.eqZero = true) :
    ((q "min_lat" = none ∨ q "max_lat" = none ∨ q "min_lng" = none ∨ q "max_lng" = none ∨
        q "zoom" = none) → getClustersHandler pf core q = ⟨400, none⟩) ∧
    (((pf (q.value "min_lat")).1.eqZero = true ∨ (pf (q.value "max_lat")).1.eqZero = true ∨
        (pf (q.value "min_lng")).1.eqZero = true ∨ (pf (q.value "max_lng")).1.eqZero = true ∨
        (Atoi (q.value "zoom")).1 = 0) → getClustersHandler pf core q = ⟨400, none⟩) ∧
    (¬ ((pf (q.value "min_lat")).1.eqZero = true ∨ (pf (q.value "max_lat")).1.eqZero = true ∨
        (pf (q.value "min_lng")).1.eqZero = true ∨ (pf (q.value "max_lng")).1.eqZero = true ∨
        (Atoi (q.value "zoom")).1 = 0) →
      (getClustersHandler pf core q).call =
        some ⟨(pf (q.value "min_lat")).1, (pf (q.value "max_lat")).1,
          (pf (q.value "min_lng")).1, (pf (q.value "max_lng")).1, (Atoi (q.value "zoom")).1⟩ ∧
      ((getClustersHandler pf core q).status = 200 ∨
        (getClustersHandler pf core q).status = 500)) := by
  have hzero : ((pf (q.value "min_lat")).1.eqZero = true ∨
      (pf (q.value "max_lat")).1.eqZero = true ∨
      (pf (q.value "min_lng")).1.eqZero = true ∨ (pf (q.value "max_lng")).1.eqZero = true ∨
      (Atoi (q.value "zoom")).1 = 0) → getClustersHandler pf core q = ⟨400, none⟩ := by
    intro h
    unfold getClustersHandler
    rw [if_pos]
    simpa [Bool.or_eq_true, or_assoc] using h
  have hatoi : (Atoi "").1 = 0 := by decide
  refine ⟨?_, hzero, ?_⟩
  · intro habs
    apply hzero
    rcases habs with h | h | h | h | h
    · exact Or.inl (by simp [Query.value, h, hpf])
    · exact Or.inr (Or.inl (by simp [Query.value, h, hpf]))
    · exact Or.inr (Or.inr (Or.inl (by simp [Query.value, h, hpf])))
    · exact Or.inr (Or.inr (Or.inr (Or.inl (by simp [Query.value, h, hpf]))))
    · exact Or.inr (Or.inr (Or.inr (Or.inr (by simp [Query.value, h, hatoi]))))
  · intro h
    unfold getClustersHandler
    rw [if_neg (by simpa [Bool.or_eq_true, or_assoc] using h)]
    split
    · exact ⟨rfl, Or.inr rfl⟩
    · exact ⟨rfl, Or.inl rfl⟩

/-- C7 at a concrete request: with zoom `-3` and the four coordinates present
the handler calls `getClusters` with the five parsed values. -/
theorem getClustersHandler_gate_witness :
    (getClustersHandler ParseFloat (fun _ => false)
        (requestOf "54.7" "55.2" "82.8" "83.2" "-3")).call =
      some ⟨.fin false 547 1, .fin false 552 1, .fin false 828 1, .fin false 832 1, -3⟩ :=
  ((getClustersHandler_gate ParseFloat (fun _ => false)
    (requestOf "54.7" "55.2" "82.8" "83.2" "-3") (by decide)).2.2 (by decide)).1

/-- C7 as stated fails: the request with the four coordinates and `zoom=0`
carries a zoom level that parses without error to the non-negative integer 0,
and the handler answers 400 without calling `getClusters`. -/
theorem zoom_zero_is_rejected :
    Atoi "0" = (0, none) ∧
    getClustersHandler ParseFloat (fun _ => false)
        (requestOf "54.7" "55.2" "82.8" "83.2" "0") = ⟨400, none⟩ := by
  decide

end Clusters
